import Mathlib

/-!
Verification development for the `factoratio` crafting-ratio engine.

The development has two layers:

* `Src` — a shallow embedding, translated declaration by declaration from
  `src/factoratio.py`: the `Item`, `Recipe`, `RecipeLine` and `Factory`
  classes.  Python dicts become insertion-ordered association lists, the
  class-wide id registries (`Item._used_item_ids`, `Recipe._used_recipe_ids`)
  become explicitly threaded registry lists, `raise Exception` becomes an
  `Except` error, and float quantities become rationals.

* `Model` — the Resolver and the build-time validation whose bodies are
  absent from the source (`Factory.get_raw_cost` is truncated mid-statement
  and takes no quantity argument; `resolve_production_plan` and the
  `Catalog.build` checks do not appear at all).  These are modelled from the
  specification's algorithm description and marked as such in their doc
  comments.
-/

/-- Error kinds of the engine.  The source raises bare `Exception`s with
distinguishing messages; the spec names typed errors.  Each constructor
corresponds to one failure site.  `outOfFuel` is an artifact of the bounded
recursion used by the embedding; the public entry points use a fuel proved
sufficient, so it never escapes them. -/
inductive FactErr where
  | duplicateId (id : String)
  | invalidQuantity
  | unknownItem (id : String)
  | unknownRecipe (id : String)
  | ambiguousRecipe (id : String)
  | cyclicRecipe (cycle : List String)
  | duplicateLine (id : String)
  | notAnInput (id : String)
  | notAnOutput (id : String)
  | outOfFuel
  deriving DecidableEq, Repr

/-- Decidable equality on `Except`, used to evaluate the engine on concrete
catalogs. -/
instance exceptDecEq {ε α : Type} [DecidableEq ε] [DecidableEq α] :
    DecidableEq (Except ε α) := fun a b =>
  match a, b with
  | .ok x, .ok y =>
    if h : x = y then .isTrue (by rw [h]) else .isFalse (by intro hc; cases hc; exact h rfl)
  | .error x, .error y =>
    if h : x = y then .isTrue (by rw [h]) else .isFalse (by intro hc; cases hc; exact h rfl)
  | .ok _, .error _ => .isFalse (by intro hc; cases hc)
  | .error _, .ok _ => .isFalse (by intro hc; cases hc)

namespace Model

/-- A mapping with rational values, kept as an association list sorted by
key so that results are canonical (the spec asks for accumulation "in a
fixed, deterministic order (e.g., ascending raw-item id)"). -/
abbrev RatMap := List (String × ℚ)

/-- Modelled from the spec: a recipe as the Resolver sees it — an id and
input/output lines of (item id, positive quantity). -/
structure Recipe where
  id : String
  name : String
  inputs : List (String × ℚ)
  outputs : List (String × ℚ)
  deriving DecidableEq, Repr

/-- Modelled from the spec: the Catalog ("Factory") — items, recipes and
the informational final-product set. -/
structure Catalog where
  items : List (String × String)
  recipes : List Recipe
  finalProducts : List String
  deriving DecidableEq, Repr

/-- Sorted-insertion of a key/value pair, adding the values when the key is
already present. -/
def insertAdd : RatMap → String → ℚ → RatMap
  | [], k, v => [(k, v)]
  | (k', v') :: t, k, v =>
    if k = k' then (k', v' + v) :: t
    else if k < k' then (k, v) :: (k', v') :: t
    else (k', v') :: insertAdd t k v

/-- Merge the second mapping into the first, summing values per key. -/
def mergeAdd (m : RatMap) (l : RatMap) : RatMap :=
  l.foldl (fun acc p => insertAdd acc p.1 p.2) m

/-- Scale every value of a mapping by `k`, keys unchanged. -/
def scaleList (k : ℚ) (l : RatMap) : RatMap :=
  l.map (fun p => (p.1, k * p.2))

/-- Modelled from the spec: `producing_recipe(item_id)` — the recipe listing
`i` among its outputs (the build validation makes it unique). -/
def producingRecipe (c : Catalog) (i : String) : Option Recipe :=
  c.recipes.find? (fun r => r.outputs.any (fun p => p.1 == i))

/-- Quantity of item `i` among the outputs of recipe `r` (0 if absent). -/
def outputQty (r : Recipe) (i : String) : ℚ :=
  match r.outputs.find? (fun p => p.1 == i) with
  | some p => p.2
  | none => 0

/-- Modelled from the spec: fold the recursive per-unit resolution `f` over
the input lines of a recipe with output quantity `oq`, scaling each input's
unit result by `input_qty / oq` and merging by summation.  Returns the pair
(raw-cost contributions, production-plan contributions). -/
def resolveList (f : String → Except FactErr (RatMap × RatMap)) (oq : ℚ) :
    List (String × ℚ) → Except FactErr (RatMap × RatMap)
  | [] => .ok ([], [])
  | (j, jq) :: rest =>
    match f j with
    | .error e => .error e
    | .ok (cj, pj) =>
      match resolveList f oq rest with
      | .error e => .error e
      | .ok (cr, pr) =>
        .ok (mergeAdd cr (scaleList (jq / oq) cj), mergeAdd pr (scaleList (jq / oq) pj))

/-- Modelled from the spec: per-unit resolution of item `i` — the raw cost
and the production plan for exactly one unit of `i`.  `path` is the set of
items on the active recursion path (cycle detection); re-entering an item on
the path fails with `cyclicRecipeError` naming the loop (the suffix of the
active path starting at the re-entered item).  The recursion is bounded by
`fuel`; the public entry points pass a fuel proved sufficient below. -/
def resolveUnit (c : Catalog) : Nat → List String → String → Except FactErr (RatMap × RatMap)
  | 0, _, _ => .error .outOfFuel
  | Nat.succ fuel, path, i =>
    if i ∈ path then .error (.cyclicRecipe (path.dropWhile (fun a => a != i)))
    else
      match producingRecipe c i with
      | none => .ok ([(i, 1)], [])
      | some r =>
        match resolveList (fun j => resolveUnit c fuel (path ++ [i]) j) (outputQty r i) r.inputs with
        | .error e => .error e
        | .ok (cost, plan) => .ok (cost, insertAdd plan r.id (1 / outputQty r i))

/-- All item ids that appear as some recipe's output. -/
def allOutputIds (c : Catalog) : List String :=
  (c.recipes.map (fun r => r.outputs.map Prod.fst)).flatten

/-- Fuel sufficient for any resolution over catalog `c`: one more than the
number of output lines, since the active path only ever holds distinct
producible items. -/
def fuelFor (c : Catalog) : Nat :=
  (allOutputIds c).length + 1

/-- Modelled from the spec: `resolve_raw_cost(catalog, item_id, quantity)` —
total raw-material quantities needed for `quantity` units of `item_id`.
Rejects non-positive quantities; otherwise scales the per-unit raw cost. -/
def resolve_raw_cost (c : Catalog) (i : String) (q : ℚ) : Except FactErr RatMap :=
  if q ≤ 0 then .error .invalidQuantity
  else Except.map (fun pr => scaleList q pr.1) (resolveUnit c (fuelFor c) [] i)

/-- Modelled from the spec: `resolve_production_plan(catalog, item_id,
quantity)` — execution rate of every recipe needed to sustain `quantity`
units of `item_id`. -/
def resolve_production_plan (c : Catalog) (i : String) (q : ℚ) : Except FactErr RatMap :=
  if q ≤ 0 then .error .invalidQuantity
  else Except.map (fun pr => scaleList q pr.2) (resolveUnit c (fuelFor c) [] i)

/-- The diamond catalog of the spec's aggregation example: raw item `D`,
`RB`: 1 D → 1 B, `RC`: 1 D → 1 C, `RA`: 1 B + 2 C → 1 A. -/
def diamondCatalog : Catalog :=
  { items := [("A", "A"), ("B", "B"), ("C", "C"), ("D", "D")]
    recipes :=
      [ { id := "RB", name := "RB", inputs := [("D", 1)], outputs := [("B", 1)] }
      , { id := "RC", name := "RC", inputs := [("D", 1)], outputs := [("C", 1)] }
      , { id := "RA", name := "RA", inputs := [("B", 1), ("C", 2)], outputs := [("A", 1)] } ]
    finalProducts := ["A"] }

/-- The two-recipe cyclic catalog of the spec's cycle example:
`R1`: 1 X → 1 Y and `R2`: 1 Y → 1 X. -/
def cyclicCatalog : Catalog :=
  { items := [("X", "X"), ("Y", "Y")]
    recipes :=
      [ { id := "R1", name := "R1", inputs := [("X", 1)], outputs := [("Y", 1)] }
      , { id := "R2", name := "R2", inputs := [("Y", 1)], outputs := [("X", 1)] } ]
    finalProducts := [] }


/-- The number of producible items (items listed as some recipe's output)
not yet on the active path: the termination measure of the resolution walk. -/
def producibleLeft (c : Catalog) (path : List String) : ℕ :=
  ((allOutputIds c).toFinset.filter (fun a => a ∉ path)).card

/-- The resolution walk from item `i` with active path `path` reaches an
item already on the path: either `i` itself is on the path, or `i` has a
producing recipe one of whose inputs does so with `i` pushed onto the path.
This is the spec's "resolution of an item re-enters an item already in
progress". -/
inductive HitsCycle (c : Catalog) : List String → String → Prop
  | onPath {path : List String} {i : String} : i ∈ path → HitsCycle c path i
  | step {path : List String} {i : String} {r : Recipe} {j : String} {jq : ℚ} :
      producingRecipe c i = some r → (j, jq) ∈ r.inputs →
      HitsCycle c (path ++ [i]) j → HitsCycle c path i

/-- A result mapping in canonical form: keys strictly ascending. -/
def SortedMap (l : RatMap) : Prop :=
  l.Pairwise (fun a b => a.1 < b.1)

end Model

namespace Src

/-- `Item` from the source: id and display name.  The id is the source of
identity (`__eq__`/`__hash__` go through `get_item_id`). -/
structure Item where
  item_id : String
  item_name : String
  deriving DecidableEq, Repr

/-- `Item.get_item_id` from the source. -/
def Item.get_item_id (it : Item) : String := it.item_id

/-- `Item.get_item_name` from the source. -/
def Item.get_item_name (it : Item) : String := it.item_name

/-- `Item.__init__` from the source: the class-wide registry
`Item._used_item_ids` is passed and returned explicitly.  Creation fails if
the id is already taken anywhere in the process, and otherwise records the
id in the registry. -/
def Item.init (usedItemIds : List String) (item_id item_name : String) :
    Except FactErr (Item × List String) :=
  if item_id ∈ usedItemIds then .error (.duplicateId item_id)
  else .ok (⟨item_id, item_name⟩, usedItemIds ++ [item_id])

/-- `RecipeLine` from the source: an Item together with a quantity.  The
constructor stores the quantity unconditionally — there is no sign check. -/
structure RecipeLine where
  item : Item
  quantity : ℚ
  deriving DecidableEq, Repr

/-- `RecipeLine.__init__` from the source. -/
def RecipeLine.init (item : Item) (quantity : ℚ) : RecipeLine :=
  ⟨item, quantity⟩

/-- `RecipeLine.get_item` from the source. -/
def RecipeLine.get_item (l : RecipeLine) : Item := l.item

/-- `RecipeLine.get_quantity` from the source. -/
def RecipeLine.get_quantity (l : RecipeLine) : ℚ := l.quantity

/-- `Recipe` from the source: id, name, and the input/output dicts keyed by
item id (Python dicts become insertion-ordered association lists). -/
structure Recipe where
  recipe_id : String
  recipe_name : String
  inputs : List (String × RecipeLine)
  outputs : List (String × RecipeLine)
  deriving DecidableEq, Repr

/-- Loop of `Recipe._build_dict` from the source: fold the lines into a
dict keyed by item id, failing if an item appears twice. -/
def Recipe.build_dict_aux :
    List (String × RecipeLine) → List RecipeLine → Except FactErr (List (String × RecipeLine))
  | acc, [] => .ok acc
  | acc, line :: rest =>
    match acc.lookup line.get_item.get_item_id with
    | some _ => .error (.duplicateLine line.get_item.get_item_id)
    | none => Recipe.build_dict_aux (acc ++ [(line.get_item.get_item_id, line)]) rest

/-- `Recipe._build_dict` from the source. -/
def Recipe.build_dict (lines : List RecipeLine) : Except FactErr (List (String × RecipeLine)) :=
  Recipe.build_dict_aux [] lines

/-- `Recipe.__init__` from the source: the class-wide registry
`Recipe._used_recipe_ids` is passed and returned explicitly.  There is no
check that `outputs` is nonempty. -/
def Recipe.init (usedRecipeIds : List String) (recipe_id recipe_name : String)
    (inputs outputs : List RecipeLine) : Except FactErr (Recipe × List String) :=
  if recipe_id ∈ usedRecipeIds then .error (.duplicateId recipe_id)
  else
    match Recipe.build_dict inputs with
    | .error e => .error e
    | .ok ind =>
      match Recipe.build_dict outputs with
      | .error e => .error e
      | .ok outd => .ok (⟨recipe_id, recipe_name, ind, outd⟩, usedRecipeIds ++ [recipe_id])

/-- `Recipe.get_recipe_id` from the source. -/
def Recipe.get_recipe_id (r : Recipe) : String := r.recipe_id

/-- `Recipe.is_output` from the source: whether `item_id` is among the keys
of the output dict. -/
def Recipe.is_output (r : Recipe) (item_id : String) : Bool :=
  (r.outputs.lookup item_id).isSome

/-- `Recipe.is_input` from the source. -/
def Recipe.is_input (r : Recipe) (item_id : String) : Bool :=
  (r.inputs.lookup item_id).isSome

/-- `Recipe._get_output_line` from the source: the output line for
`item_id`, failing when there is no such line. -/
def Recipe.get_output_line (r : Recipe) (item_id : String) : Except FactErr RecipeLine :=
  match r.outputs.lookup item_id with
  | some l => .ok l
  | none => .error (.notAnOutput item_id)

/-- `Recipe._get_input_line` from the source. -/
def Recipe.get_input_line (r : Recipe) (item_id : String) : Except FactErr RecipeLine :=
  match r.inputs.lookup item_id with
  | some l => .ok l
  | none => .error (.notAnInput item_id)

/-- `Recipe.get_output_quantity` from the source: the quantity of `item_id`
among the outputs, or 0 when it is not an output. -/
def Recipe.get_output_quantity (r : Recipe) (item_id : String) : ℚ :=
  if r.is_output item_id then
    match r.get_output_line item_id with
    | .ok l => l.get_quantity
    | .error _ => 0
  else 0

/-- `Recipe.get_input_quantity` from the source. -/
def Recipe.get_input_quantity (r : Recipe) (item_id : String) : ℚ :=
  if r.is_input item_id then
    match r.get_input_line item_id with
    | .ok l => l.get_quantity
    | .error _ => 0
  else 0

/-- `Factory` from the source: final products, items and recipes as given. -/
structure Factory where
  final_products : List Item
  items : List Item
  recipes : List Recipe
  deriving DecidableEq, Repr

/-- `Factory.__init__` from the source: it stores its three arguments and
performs no validation of any kind. -/
def Factory.init (final_products : List Item) (items : List Item) (recipes : List Recipe) :
    Factory :=
  ⟨final_products, items, recipes⟩

/-- The item-loading loop of `Factory.from_json_file` from the source:
construct the Items in order, threading the class-wide id registry. -/
def build_items : List String → List (String × String) → Except FactErr (List Item × List String)
  | used, [] => .ok ([], used)
  | used, (iid, iname) :: rest =>
    match Item.init used iid iname with
    | .error e => .error e
    | .ok (it, used') =>
      match build_items used' rest with
      | .error e => .error e
      | .ok (its, used'') => .ok (it :: its, used'')

/-- A construction in which two recipes both list item `Z` as an output:
build the item, the two recipes and the Factory exactly as the source's
constructors do. -/
def twoOutputBuild : Except FactErr Factory := do
  let (z, _) ← Item.init [] "Z" "zinc"
  let (r1, g1) ← Recipe.init [] "R1" "first" [] [RecipeLine.init z 1]
  let (r2, _) ← Recipe.init g1 "R2" "second" [] [RecipeLine.init z 1]
  pure (Factory.init [] [z] [r1, r2])

end Src

namespace Model

/-- Claim C1: for the diamond catalog (raw item D; RB: 1 D → 1 B; RC: 1 D →
1 C; RA: 1 B + 2 C → 1 A), `resolve_raw_cost("A", 1)` is exactly `D ↦ 3`
and `resolve_production_plan("A", 1)` is exactly `RA ↦ 1, RB ↦ 1, RC ↦ 2`. -/
theorem diamond_aggregation :
    resolve_raw_cost diamondCatalog "A" 1 = .ok [("D", 3)] ∧
    resolve_production_plan diamondCatalog "A" 1 = .ok [("RA", 1), ("RB", 1), ("RC", 2)] := by
  constructor
  · simp [resolve_raw_cost, fuelFor, allOutputIds, diamondCatalog, resolveUnit, resolveList,
      producingRecipe, outputQty, mergeAdd, insertAdd, scaleList, Except.map, List.find?,
      List.any, List.dropWhile, beq_iff_eq, bne_iff_ne]
    norm_num
  · simp [resolve_production_plan, fuelFor, allOutputIds, diamondCatalog, resolveUnit,
      resolveList, producingRecipe, outputQty, mergeAdd, insertAdd, scaleList, Except.map,
      List.find?, List.any, List.dropWhile, beq_iff_eq, bne_iff_ne]
    norm_num
    exact fun h => absurd h (by decide)

/-- Claim C2: for every catalog and every item with no producing recipe (a
raw material), `resolve_raw_cost(item, q)` is the single-entry mapping
`item ↦ q`, for every q > 0. -/
theorem raw_material_cost (c : Catalog) (i : String) (q : ℚ)
    (hraw : producingRecipe c i = none) (hq : 0 < q) :
    resolve_raw_cost c i q = .ok [(i, q)] := by
  unfold resolve_raw_cost fuelFor
  rw [if_neg (not_le.mpr hq)]
  simp [resolveUnit, hraw, scaleList, Except.map]

/-- Witness for C2 at the diamond catalog's raw item D with q = 5. -/
theorem raw_material_cost_witness :
    producingRecipe diamondCatalog "D" = none ∧ (0:ℚ) < 5 ∧
    resolve_raw_cost diamondCatalog "D" 5 = .ok [("D", 5)] :=
  ⟨by rfl, by norm_num, raw_material_cost diamondCatalog "D" 5 (by rfl) (by norm_num)⟩

end Model

namespace Model

/-- An item with a producing recipe appears among the catalog's output ids. -/
theorem mem_allOutputIds_of_producing {c : Catalog} {i : String} {r : Recipe}
    (h : producingRecipe c i = some r) : i ∈ allOutputIds c := by
  have h' : List.find? (fun r => r.outputs.any (fun p => p.1 == i)) c.recipes = some r := h
  have hr : r ∈ c.recipes := List.mem_of_find?_eq_some h'
  have hp := List.find?_some h'
  obtain ⟨p, hpmem, hpi⟩ := List.any_eq_true.mp hp
  have hpi' : p.1 = i := by simpa using hpi
  simp only [allOutputIds, List.mem_flatten]
  exact ⟨r.outputs.map Prod.fst, List.mem_map_of_mem _ hr,
    hpi' ▸ List.mem_map_of_mem Prod.fst hpmem⟩

/-- Pushing a producible item not yet on the path strictly shrinks the
termination measure. -/
theorem producibleLeft_decrease {c : Catalog} {i : String} {r : Recipe} {path : List String}
    (hp : producingRecipe c i = some r) (hni : i ∉ path) :
    producibleLeft c (path ++ [i]) < producibleLeft c path := by
  have hsub : ((allOutputIds c).toFinset.filter (fun a => a ∉ path ++ [i])) ⊆
      ((allOutputIds c).toFinset.filter (fun a => a ∉ path)) := by
    intro a ha
    simp only [Finset.mem_filter, List.mem_append] at ha ⊢
    exact ⟨ha.1, fun hmem => ha.2 (Or.inl hmem)⟩
  have hi_t : i ∈ ((allOutputIds c).toFinset.filter (fun a => a ∉ path)) :=
    Finset.mem_filter.mpr ⟨List.mem_toFinset.mpr (mem_allOutputIds_of_producing hp), hni⟩
  have hi_s : i ∉ ((allOutputIds c).toFinset.filter (fun a => a ∉ path ++ [i])) := by
    simp [Finset.mem_filter]
  exact Finset.card_lt_card ((Finset.ssubset_iff_of_subset hsub).mpr ⟨i, hi_t, hi_s⟩)

/-- The emitted cycle list is nonempty when the item is on the path. -/
theorem dropWhile_ne_nil_of_mem {i : String} {path : List String} (h : i ∈ path) :
    path.dropWhile (fun a => a != i) ≠ [] := by
  induction path with
  | nil => cases h
  | cons a t ih =>
    by_cases hai : a = i
    · subst hai
      simp [List.dropWhile_cons]
    · have hit : i ∈ t := by
        rcases List.mem_cons.mp h with h1 | h2
        · exact absurd h1.symm hai
        · exact h2
      have hbne : (a != i) = true := bne_iff_ne.mpr hai
      simp only [List.dropWhile_cons, hbne, if_pos]
      exact ih hit

/-- Any error of the input fold comes from the per-item resolver. -/
theorem resolveList_error_src (f : String → Except FactErr (RatMap × RatMap)) (oq : ℚ)
    {inputs : List (String × ℚ)} {e : FactErr} (h : resolveList f oq inputs = .error e) :
    ∃ j jq, (j, jq) ∈ inputs ∧ f j = .error e := by
  induction inputs with
  | nil => simp [resolveList] at h
  | cons a rest ih =>
    obtain ⟨j, jq⟩ := a
    cases hfj : f j with
    | error e' =>
      simp only [resolveList, hfj] at h
      injection h with h'
      exact ⟨j, jq, List.mem_cons_self _ _, by rw [hfj, h']⟩
    | ok pr =>
      obtain ⟨cj, pj⟩ := pr
      cases hrest : resolveList f oq rest with
      | error e' =>
        simp only [resolveList, hfj, hrest] at h
        injection h with h'
        subst h'
        obtain ⟨j', jq', hmem, hf'⟩ := ih hrest
        exact ⟨j', jq', List.mem_cons_of_mem _ hmem, hf'⟩
      | ok pr' =>
        obtain ⟨cr, pr2⟩ := pr'
        simp [resolveList, hfj, hrest] at h

/-- If some input's resolution errors, the fold over the inputs errors. -/
theorem resolveList_error_of_mem (f : String → Except FactErr (RatMap × RatMap)) (oq : ℚ)
    {inputs : List (String × ℚ)} {j : String} {jq : ℚ} {e' : FactErr}
    (hmem : (j, jq) ∈ inputs) (hf : f j = .error e') :
    ∃ e, resolveList f oq inputs = .error e := by
  induction inputs with
  | nil => cases hmem
  | cons a rest ih =>
    obtain ⟨a1, a2⟩ := a
    cases hfa : f a1 with
    | error e'' => exact ⟨e'', by simp only [resolveList, hfa]⟩
    | ok pr =>
      obtain ⟨cj, pj⟩ := pr
      have hmem' : (j, jq) ∈ rest := by
        rcases List.mem_cons.mp hmem with h1 | h2
        · exfalso
          rw [Prod.mk.injEq] at h1
          rw [h1.1] at hf
          rw [hf] at hfa
          cases hfa
        · exact h2
      obtain ⟨e, he⟩ := ih hmem'
      exact ⟨e, by simp only [resolveList, hfa, he]⟩

/-- With fuel above the termination measure the resolver never reports fuel
exhaustion: the walk terminates inside the fuel bound. -/
theorem resolveUnit_ne_outOfFuel {c : Catalog} :
    ∀ (fuel : Nat) (path : List String) (i : String), producibleLeft c path < fuel →
      resolveUnit c fuel path i ≠ .error .outOfFuel := by
  intro fuel
  induction fuel with
  | zero => intro path i h; exact absurd h (Nat.not_lt_zero _)
  | succ m ih =>
    intro path i hfuel hres
    by_cases hip : i ∈ path
    · simp [resolveUnit, hip] at hres
    · simp only [resolveUnit, if_neg hip] at hres
      cases hpr : producingRecipe c i with
      | none => simp [hpr] at hres
      | some r =>
        simp only [hpr] at hres
        cases hrl : resolveList (fun j => resolveUnit c m (path ++ [i]) j) (outputQty r i)
            r.inputs with
        | ok pr =>
          obtain ⟨cost, plan⟩ := pr
          simp [hrl] at hres
        | error e =>
          simp only [hrl] at hres
          injection hres with he
          obtain ⟨j, jq, hmem, hfj⟩ := resolveList_error_src _ _ hrl
          have hlt : producibleLeft c (path ++ [i]) < m :=
            lt_of_lt_of_le (producibleLeft_decrease hpr hip) (Nat.lt_succ_iff.mp hfuel)
          exact ih (path ++ [i]) j hlt (by rw [hfj, he])

/-- Every error the per-unit resolver can produce is fuel exhaustion or a
cyclic-recipe error carrying a nonempty loop. -/
theorem resolveUnit_error_shape {c : Catalog} :
    ∀ (fuel : Nat) (path : List String) (i : String) (e : FactErr),
      resolveUnit c fuel path i = .error e →
      e = .outOfFuel ∨ ∃ cyc, e = .cyclicRecipe cyc ∧ cyc ≠ [] := by
  intro fuel
  induction fuel with
  | zero =>
    intro path i e h
    simp only [resolveUnit] at h
    injection h with h'
    exact Or.inl h'.symm
  | succ m ih =>
    intro path i e h
    by_cases hip : i ∈ path
    · simp only [resolveUnit, if_pos hip] at h
      injection h with h'
      exact Or.inr ⟨_, h'.symm, dropWhile_ne_nil_of_mem hip⟩
    · simp only [resolveUnit, if_neg hip] at h
      cases hpr : producingRecipe c i with
      | none => simp [hpr] at h
      | some r =>
        simp only [hpr] at h
        cases hrl : resolveList (fun j => resolveUnit c m (path ++ [i]) j) (outputQty r i)
            r.inputs with
        | ok pr =>
          obtain ⟨cost, plan⟩ := pr
          simp [hrl] at h
        | error e' =>
          simp only [hrl] at h
          injection h with h'
          obtain ⟨j, jq, hmem, hfj⟩ := resolveList_error_src _ _ hrl
          exact h' ▸ ih (path ++ [i]) j e' hfj

/-- A walk that re-enters the active path makes the resolver error. -/
theorem hitsCycle_errors {c : Catalog} {path : List String} {i : String}
    (h : HitsCycle c path i) :
    ∀ fuel : Nat, producibleLeft c path < fuel → ∃ e, resolveUnit c fuel path i = .error e := by
  induction h with
  | @onPath path' i' hip =>
    intro fuel hfuel
    cases fuel with
    | zero => exact absurd hfuel (Nat.not_lt_zero _)
    | succ m =>
      refine ⟨.cyclicRecipe (path'.dropWhile (fun a => a != i')), ?_⟩
      simp only [resolveUnit, if_pos hip]
  | @step path' i' r' j' jq' hpr hmem hrec ih =>
    intro fuel hfuel
    cases fuel with
    | zero => exact absurd hfuel (Nat.not_lt_zero _)
    | succ m =>
      by_cases hip : i' ∈ path'
      · refine ⟨.cyclicRecipe (path'.dropWhile (fun a => a != i')), ?_⟩
        simp only [resolveUnit, if_pos hip]
      · have hlt : producibleLeft c (path' ++ [i']) < m :=
          lt_of_lt_of_le (producibleLeft_decrease hpr hip) (Nat.lt_succ_iff.mp hfuel)
        obtain ⟨e', hfj⟩ := ih m hlt
        obtain ⟨e, he⟩ := resolveList_error_of_mem
          (fun j => resolveUnit c m (path' ++ [i']) j) (outputQty r' i') hmem hfj
        exact ⟨e, by simp only [resolveUnit, if_neg hip, hpr, he]⟩

end Model

namespace Model

/-- Claim C3: whenever resolution of the queried item re-enters an item
already on the active recursion path (`HitsCycle`), `resolve_raw_cost`
fails with a `cyclicRecipe` error naming a nonempty ordered loop — the
total Lean definition itself rules out unbounded recursion, and
`resolveUnit_ne_outOfFuel` rules out fuel exhaustion.  On the spec's own
two-recipe example (R1: 1 X → 1 Y, R2: 1 Y → 1 X) the reported loop is
exactly `["X", "Y"]`. -/
theorem cyclic_detection :
    (∀ (c : Catalog) (i : String) (q : ℚ), 0 < q → HitsCycle c [] i →
      ∃ cyc, resolve_raw_cost c i q = .error (.cyclicRecipe cyc) ∧ cyc ≠ []) ∧
    resolve_raw_cost cyclicCatalog "X" 1 = .error (.cyclicRecipe ["X", "Y"]) := by
  constructor
  · intro c i q hq hcyc
    have hfuel : producibleLeft c [] < fuelFor c := by
      have h1 : producibleLeft c [] ≤ (allOutputIds c).length := by
        unfold producibleLeft
        exact le_trans (Finset.card_filter_le _ _) (allOutputIds c).toFinset_card_le
      unfold fuelFor
      omega
    obtain ⟨e, he⟩ := hitsCycle_errors hcyc (fuelFor c) hfuel
    rcases resolveUnit_error_shape (fuelFor c) [] i e he with h1 | ⟨cyc, hcy, hne⟩
    · exact absurd (h1 ▸ he) (resolveUnit_ne_outOfFuel (fuelFor c) [] i hfuel)
    · refine ⟨cyc, ?_, hne⟩
      unfold resolve_raw_cost
      rw [if_neg (not_le.mpr hq), he, hcy]
      rfl
  · simp [resolve_raw_cost, fuelFor, allOutputIds, cyclicCatalog, resolveUnit, resolveList,
      producingRecipe, outputQty, mergeAdd, insertAdd, scaleList, Except.map, List.find?,
      List.any, List.dropWhile, beq_iff_eq, bne_iff_ne]

/-- Witness for C3 on the spec's cyclic example with q = 1: the walk from X
re-enters X, so the quantified part applies. -/
theorem cyclic_detection_witness :
    ∃ cyc, resolve_raw_cost cyclicCatalog "X" 1 = .error (.cyclicRecipe cyc) ∧ cyc ≠ [] := by
  have hx : producingRecipe cyclicCatalog "X" =
      some { id := "R2", name := "R2", inputs := [("Y", 1)], outputs := [("X", 1)] } := by rfl
  have hy : producingRecipe cyclicCatalog "Y" =
      some { id := "R1", name := "R1", inputs := [("X", 1)], outputs := [("Y", 1)] } := by rfl
  refine cyclic_detection.1 cyclicCatalog "X" 1 (by norm_num) ?_
  refine @HitsCycle.step cyclicCatalog [] "X" _ "Y" 1 hx (by simp) ?_
  refine @HitsCycle.step cyclicCatalog ["X"] "Y" _ "X" 1 hy (by simp) ?_
  exact HitsCycle.onPath (by simp)

/-- Claim C6: linearity — `resolve_raw_cost(item, k*q)` is
`resolve_raw_cost(item, q)` with the same keys and every value multiplied
by `k`, for all q > 0 and k > 0. -/
theorem raw_cost_linear (c : Catalog) (i : String) (q k : ℚ) (hq : 0 < q) (hk : 0 < k) :
    resolve_raw_cost c i (k * q) =
      Except.map (fun l => l.map (fun p => (p.1, k * p.2))) (resolve_raw_cost c i q) := by
  have hkq : 0 < k * q := mul_pos hk hq
  unfold resolve_raw_cost
  rw [if_neg (not_le.mpr hkq), if_neg (not_le.mpr hq)]
  cases resolveUnit c (fuelFor c) [] i with
  | error e => rfl
  | ok pr =>
    simp only [Except.map, scaleList, List.map_map]
    simp [Function.comp_def, mul_assoc]

/-- Witness for C6 at the diamond catalog with q = 1, k = 2. -/
theorem raw_cost_linear_witness :
    (0:ℚ) < 1 ∧ (0:ℚ) < 2 ∧
    resolve_raw_cost diamondCatalog "A" (2 * 1) =
      Except.map (fun l => l.map (fun p => (p.1, 2 * p.2)))
        (resolve_raw_cost diamondCatalog "A" 1) :=
  ⟨by norm_num, by norm_num, raw_cost_linear diamondCatalog "A" 1 2 (by norm_num) (by norm_num)⟩

end Model

namespace Model

/-- Keys of a sorted-insert come from the inserted key or the old keys. -/
theorem insertAdd_keys :
    ∀ (t : RatMap) (k : String) (v : ℚ) (b : String × ℚ),
      b ∈ insertAdd t k v → b.1 = k ∨ b.1 ∈ t.map Prod.fst := by
  intro t
  induction t with
  | nil =>
    intro k v b hb
    simp only [insertAdd, List.mem_singleton] at hb
    exact Or.inl (by rw [hb])
  | cons a t ih =>
    intro k v b hb
    obtain ⟨a1, a2⟩ := a
    by_cases hk : k = a1
    · simp only [insertAdd, if_pos hk] at hb
      rcases List.mem_cons.mp hb with h1 | h2
      · exact Or.inl (by rw [h1, hk])
      · exact Or.inr (List.mem_cons_of_mem _ (List.mem_map_of_mem Prod.fst h2))
    · by_cases hlt : k < a1
      · simp only [insertAdd, if_neg hk, if_pos hlt] at hb
        rcases List.mem_cons.mp hb with h1 | h2
        · exact Or.inl (by rw [h1])
        · exact Or.inr (List.mem_map_of_mem Prod.fst h2)
      · simp only [insertAdd, if_neg hk, if_neg hlt] at hb
        rcases List.mem_cons.mp hb with h1 | h2
        · exact Or.inr (by rw [h1]; exact List.mem_cons_self _ _)
        · rcases ih k v b h2 with h3 | h4
          · exact Or.inl h3
          · exact Or.inr (List.mem_cons_of_mem _ h4)

/-- Sorted-insertion preserves the strictly-ascending-keys invariant. -/
theorem insertAdd_sorted :
    ∀ (t : RatMap) (k : String) (v : ℚ), SortedMap t → SortedMap (insertAdd t k v) := by
  intro t
  induction t with
  | nil => intro k v _; simp [insertAdd, SortedMap]
  | cons a t ih =>
    intro k v h
    obtain ⟨a1, a2⟩ := a
    rw [SortedMap, List.pairwise_cons] at h
    obtain ⟨hhead, htail⟩ := h
    by_cases hk : k = a1
    · rw [SortedMap]
      simp only [insertAdd, if_pos hk]
      exact List.pairwise_cons.mpr ⟨hhead, htail⟩
    · by_cases hlt : k < a1
      · rw [SortedMap]
        simp only [insertAdd, if_neg hk, if_pos hlt]
        refine List.pairwise_cons.mpr ⟨?_, List.pairwise_cons.mpr ⟨hhead, htail⟩⟩
        intro b hb
        rcases List.mem_cons.mp hb with h1 | h2
        · rw [h1]; exact hlt
        · exact lt_trans hlt (hhead b h2)
      · have ha1k : a1 < k := lt_of_le_of_ne (not_lt.mp hlt) (fun he => hk he.symm)
        rw [SortedMap]
        simp only [insertAdd, if_neg hk, if_neg hlt]
        refine List.pairwise_cons.mpr ⟨?_, ih k v htail⟩
        intro b hb
        rcases insertAdd_keys t k v b hb with h1 | h2
        · rw [h1]; exact ha1k
        · obtain ⟨b', hb', hbe⟩ := List.mem_map.mp h2
          exact hbe ▸ hhead b' hb'

/-- Merging preserves the strictly-ascending-keys invariant. -/
theorem mergeAdd_sorted :
    ∀ (l m : RatMap), SortedMap m → SortedMap (mergeAdd m l) := by
  intro l
  induction l with
  | nil => intro m h; exact h
  | cons p t ih =>
    intro m h
    rw [mergeAdd, List.foldl_cons]
    exact ih _ (insertAdd_sorted m p.1 p.2 h)

/-- Scaling keeps keys, hence keeps the invariant. -/
theorem scaleList_sorted {l : RatMap} (k : ℚ) (h : SortedMap l) : SortedMap (scaleList k l) := by
  rw [SortedMap, scaleList, List.pairwise_map]
  exact h.imp (fun hab => hab)

/-- Both components of a successful fold over the inputs are sorted,
provided the per-item resolver always returns sorted components. -/
theorem resolveList_sorted (f : String → Except FactErr (RatMap × RatMap)) (oq : ℚ) :
    ∀ (inputs : List (String × ℚ)) (cost plan : RatMap),
      resolveList f oq inputs = .ok (cost, plan) →
      (∀ j c' p', f j = .ok (c', p') → SortedMap c' ∧ SortedMap p') →
      SortedMap cost ∧ SortedMap plan := by
  intro inputs
  induction inputs with
  | nil =>
    intro cost plan h _
    simp only [resolveList] at h
    injection h with h'
    rw [Prod.mk.injEq] at h'
    exact ⟨h'.1 ▸ List.Pairwise.nil, h'.2 ▸ List.Pairwise.nil⟩
  | cons a rest ih =>
    intro cost plan h hf
    obtain ⟨j, jq⟩ := a
    cases hfj : f j with
    | error e => simp [resolveList, hfj] at h
    | ok pr =>
      obtain ⟨cj, pj⟩ := pr
      cases hrest : resolveList f oq rest with
      | error e => simp [resolveList, hfj, hrest] at h
      | ok pr' =>
        obtain ⟨cr, pr2⟩ := pr'
        simp only [resolveList, hfj, hrest] at h
        injection h with h'
        rw [Prod.mk.injEq] at h'
        obtain ⟨hcr, hpr⟩ := ih cr pr2 hrest hf
        exact ⟨h'.1 ▸ mergeAdd_sorted _ _ hcr, h'.2 ▸ mergeAdd_sorted _ _ hpr⟩

/-- Both components of a successful per-unit resolution are sorted. -/
theorem resolveUnit_sorted {c : Catalog} :
    ∀ (fuel : Nat) (path : List String) (i : String) (cost plan : RatMap),
      resolveUnit c fuel path i = .ok (cost, plan) → SortedMap cost ∧ SortedMap plan := by
  intro fuel
  induction fuel with
  | zero => intro path i cost plan h; simp [resolveUnit] at h
  | succ m ih =>
    intro path i cost plan h
    by_cases hip : i ∈ path
    · simp [resolveUnit, hip] at h
    · simp only [resolveUnit, if_neg hip] at h
      cases hpr : producingRecipe c i with
      | none =>
        simp only [hpr] at h
        injection h with h'
        rw [Prod.mk.injEq] at h'
        exact ⟨h'.1 ▸ List.pairwise_singleton _ _, h'.2 ▸ List.Pairwise.nil⟩
      | some r =>
        simp only [hpr] at h
        cases hrl : resolveList (fun j => resolveUnit c m (path ++ [i]) j) (outputQty r i)
            r.inputs with
        | error e => rw [hrl] at h; cases h
        | ok pr =>
          obtain ⟨cost', plan'⟩ := pr
          rw [hrl] at h
          injection h with h'
          rw [Prod.mk.injEq] at h'
          have hs := resolveList_sorted _ _ r.inputs cost' plan' hrl
            (fun j c' p' hj => ih (path ++ [i]) j c' p' hj)
          exact ⟨h'.1 ▸ hs.1, h'.2 ▸ insertAdd_sorted _ _ _ hs.2⟩

/-- Claim C7: resolution is deterministic — two calls with identical
arguments against the same catalog are the same pure computation and return
the same mapping; moreover every returned mapping is in canonical form
(keys strictly ascending), so equal mappings have identical
representations. -/
theorem resolve_deterministic (c : Catalog) (i : String) (q : ℚ) :
    (resolve_raw_cost c i q = resolve_raw_cost c i q ∧
      resolve_production_plan c i q = resolve_production_plan c i q) ∧
    (∀ l, resolve_raw_cost c i q = .ok l → SortedMap l) ∧
    (∀ l, resolve_production_plan c i q = .ok l → SortedMap l) := by
  refine ⟨⟨rfl, rfl⟩, ?_, ?_⟩
  · intro l hl
    unfold resolve_raw_cost at hl
    by_cases hq : q ≤ 0
    · rw [if_pos hq] at hl; cases hl
    · rw [if_neg hq] at hl
      cases hres : resolveUnit c (fuelFor c) [] i with
      | error e => rw [hres] at hl; cases hl
      | ok pr =>
        obtain ⟨cost, plan⟩ := pr
        rw [hres] at hl
        injection hl with h'
        exact h' ▸ scaleList_sorted q (resolveUnit_sorted (fuelFor c) [] i cost plan hres).1
  · intro l hl
    unfold resolve_production_plan at hl
    by_cases hq : q ≤ 0
    · rw [if_pos hq] at hl; cases hl
    · rw [if_neg hq] at hl
      cases hres : resolveUnit c (fuelFor c) [] i with
      | error e => rw [hres] at hl; cases hl
      | ok pr =>
        obtain ⟨cost, plan⟩ := pr
        rw [hres] at hl
        injection hl with h'
        exact h' ▸ scaleList_sorted q (resolveUnit_sorted (fuelFor c) [] i cost plan hres).2

/-- Witness for C7 at the diamond catalog: the raw-cost result for one A is
`[("D", 3)]` and it is in canonical sorted form. -/
theorem resolve_deterministic_witness : SortedMap [(("D":String), (3:ℚ))] := by
  refine (resolve_deterministic diamondCatalog "A" 1).2.1 [("D", 3)] ?_
  simp [resolve_raw_cost, fuelFor, allOutputIds, diamondCatalog, resolveUnit, resolveList,
    producingRecipe, outputQty, mergeAdd, insertAdd, scaleList, Except.map, List.find?,
    List.any, List.dropWhile, beq_iff_eq, bne_iff_ne]
  norm_num

end Model

namespace Src

/-- Counterexample for C4: the construction in which two recipes both list
item Z as an output runs to completion and returns a Factory — it does not
raise `AmbiguousRecipeError`.  No constructor in the source checks output
ambiguity. -/
theorem two_producers_build_succeeds :
    twoOutputBuild =
      .ok (Factory.init [] [⟨"Z", "zinc"⟩]
        [⟨"R1", "first", [], [("Z", ⟨⟨"Z", "zinc"⟩, 1⟩)]⟩,
         ⟨"R2", "second", [], [("Z", ⟨⟨"Z", "zinc"⟩, 1⟩)]⟩]) := by
  rfl

/-- Claim C4 (amended): construction performs no ambiguity check — a
Factory whose recipe set contains two recipes listing the same item Z as an
output is built successfully, and both offending recipes are present in the
returned Factory. -/
theorem two_producers_in_factory :
    ∃ f, twoOutputBuild = .ok f ∧ (f.recipes.filter (fun r => r.is_output "Z")).length = 2 :=
  ⟨Factory.init [] [⟨"Z", "zinc"⟩]
      [⟨"R1", "first", [], [("Z", ⟨⟨"Z", "zinc"⟩, 1⟩)]⟩,
       ⟨"R2", "second", [], [("Z", ⟨⟨"Z", "zinc"⟩, 1⟩)]⟩],
    by rfl, by rfl⟩

/-- Counterexample for C5: a Recipe whose input line carries quantity −1 is
constructed without any error — `RecipeLine.__init__` and the recipe/catalog
constructors perform no sign check, so construction does not raise
`InvalidQuantityError`. -/
theorem nonpositive_line_accepted :
    Recipe.init [] "R5" "refine" [RecipeLine.init ⟨"W5", "waste"⟩ (-1)]
        [RecipeLine.init ⟨"Z5", "zinc"⟩ 1] =
      .ok (⟨"R5", "refine", [("W5", ⟨⟨"W5", "waste"⟩, -1⟩)], [("Z5", ⟨⟨"Z5", "zinc"⟩, 1⟩)]⟩,
        ["R5"]) := by
  rfl

/-- Claim C5 (amended): the Resolver rejects every non-positive query
quantity with `InvalidQuantityError`, but construction does not validate
line quantities: `RecipeLine.__init__` stores any quantity unchanged. -/
theorem quantity_validation :
    (∀ (c : Model.Catalog) (i : String) (q : ℚ), q ≤ 0 →
      Model.resolve_raw_cost c i q = .error .invalidQuantity) ∧
    (∀ (it : Item) (q : ℚ), (RecipeLine.init it q).quantity = q) := by
  constructor
  · intro c i q hq
    unfold Model.resolve_raw_cost
    rw [if_pos hq]
  · intro it q
    rfl

/-- Witness for C5 at q = 0 and q = −1, and a stored −1 line quantity. -/
theorem quantity_validation_witness :
    Model.resolve_raw_cost Model.diamondCatalog "A" 0 = .error .invalidQuantity ∧
    Model.resolve_raw_cost Model.diamondCatalog "A" (-1) = .error .invalidQuantity ∧
    (RecipeLine.init ⟨"Q5", "q"⟩ (-1)).quantity = -1 :=
  ⟨quantity_validation.1 Model.diamondCatalog "A" 0 (by norm_num),
   quantity_validation.1 Model.diamondCatalog "A" (-1) (by norm_num),
   quantity_validation.2 ⟨"Q5", "q"⟩ (-1)⟩

/-- Counterexample for C8: a construction whose own input has no duplicate
id at all fails anyway, because the id registry is process-wide state
surviving from an earlier construction — uniqueness is not validated per
build call. -/
theorem cross_build_contamination :
    build_items [] [("a", "alpha")] = .ok ([⟨"a", "alpha"⟩], ["a"]) ∧
    build_items ["a"] [("a", "beta")] = .error (.duplicateId "a") :=
  ⟨rfl, rfl⟩

/-- Claim C8 (amended): two items (or recipes) sharing an id within one
construction do fail with a duplicate-id error, but the check runs against
the class-wide registries threaded through every construction of the
process, so an id colliding with any earlier construction also fails. -/
theorem duplicate_id_registry (g : List String) (i n₁ n₂ : String) :
    (i ∈ g → Item.init g i n₁ = .error (.duplicateId i)) ∧
    (i ∉ g → Item.init g i n₁ = .ok (⟨i, n₁⟩, g ++ [i]) ∧
      build_items g [(i, n₁), (i, n₂)] = .error (.duplicateId i)) ∧
    (i ∈ g → ∀ ins outs, Recipe.init g i n₁ ins outs = .error (.duplicateId i)) := by
  refine ⟨?_, ?_, ?_⟩
  · intro h
    unfold Item.init
    rw [if_pos h]
  · intro h
    constructor
    · unfold Item.init
      rw [if_neg h]
    · simp [build_items, Item.init, h, List.mem_append]
  · intro h ins outs
    unfold Recipe.init
    rw [if_pos h]

/-- Witness for C8: a fresh id succeeds and lands in the registry; the same
id repeated in one build fails; an id from the registry fails in a later
build. -/
theorem duplicate_id_registry_witness :
    Item.init ["x"] "a" "alpha" = .ok (⟨"a", "alpha"⟩, ["x", "a"]) ∧
    build_items ["x"] [("a", "alpha"), ("a", "beta")] = .error (.duplicateId "a") ∧
    Item.init ["x", "a"] "a" "gamma" = .error (.duplicateId "a") :=
  ⟨((duplicate_id_registry ["x"] "a" "alpha" "beta").2.1 (by decide)).1,
   ((duplicate_id_registry ["x"] "a" "alpha" "beta").2.1 (by decide)).2,
   (duplicate_id_registry ["x", "a"] "a" "gamma" "gamma").1 (by decide)⟩

/-- Counterexample for C9: a Recipe whose output set is empty is
constructed successfully — `Recipe.__init__` never checks that at least one
output is present. -/
theorem empty_outputs_accepted :
    Recipe.init [] "R9" "sink" [RecipeLine.init ⟨"I9", "input"⟩ 1] [] =
      .ok (⟨"R9", "sink", [("I9", ⟨⟨"I9", "input"⟩, 1⟩)], []⟩, ["R9"]) := by
  rfl

/-- Claim C9 (amended): Recipe construction does not require a nonempty
output set — for any fresh id and well-formed inputs, a Recipe with an
empty output list is returned; construction fails only on a duplicate
recipe id or a repeated item within the inputs or within the outputs. -/
theorem empty_outputs_no_check (g : List String) (i n : String) (inputs : List RecipeLine)
    (d : List (String × RecipeLine)) (hg : i ∉ g) (hd : Recipe.build_dict inputs = .ok d) :
    Recipe.init g i n inputs [] = .ok (⟨i, n, d, []⟩, g ++ [i]) := by
  unfold Recipe.init
  rw [if_neg hg]
  simp only [hd]
  rfl

/-- Witness for C9: a concrete no-output Recipe is constructed. -/
theorem empty_outputs_no_check_witness :
    Recipe.init ["S9"] "T9" "sink2" [RecipeLine.init ⟨"J9", "j"⟩ 2] [] =
      .ok (⟨"T9", "sink2", [("J9", RecipeLine.init ⟨"J9", "j"⟩ 2)], []⟩, ["S9", "T9"]) :=
  empty_outputs_no_check ["S9"] "T9" "sink2" [RecipeLine.init ⟨"J9", "j"⟩ 2]
    [("J9", RecipeLine.init ⟨"J9", "j"⟩ 2)] (by decide) (by rfl)

/-- Claim C10: for an item id absent from a recipe's outputs (respectively
inputs), `get_output_quantity` (respectively `get_input_quantity`) returns
0 rather than raising, while the private line accessors raise. -/
theorem quantity_absent_defaults (r : Recipe) (i : String) :
    (r.is_output i = false →
      r.get_output_quantity i = 0 ∧ r.get_output_line i = .error (.notAnOutput i)) ∧
    (r.is_input i = false →
      r.get_input_quantity i = 0 ∧ r.get_input_line i = .error (.notAnInput i)) := by
  constructor
  · intro h
    constructor
    · unfold Recipe.get_output_quantity
      rw [h]
      rfl
    · unfold Recipe.get_output_line
      cases hl : r.outputs.lookup i with
      | some l =>
        unfold Recipe.is_output at h
        rw [hl] at h
        simp at h
      | none => rfl
  · intro h
    constructor
    · unfold Recipe.get_input_quantity
      rw [h]
      rfl
    · unfold Recipe.get_input_line
      cases hl : r.inputs.lookup i with
      | some l =>
        unfold Recipe.is_input at h
        rw [hl] at h
        simp at h
      | none => rfl

/-- Witness for C10 at a recipe with output O0 and no inputs, queried at
the absent id M0. -/
theorem quantity_absent_defaults_witness :
    (⟨"R0", "r0", [], [("O0", RecipeLine.init ⟨"O0", "o"⟩ 1)]⟩ : Recipe).get_output_quantity
        "M0" = 0 ∧
    (⟨"R0", "r0", [], [("O0", RecipeLine.init ⟨"O0", "o"⟩ 1)]⟩ : Recipe).get_output_line "M0" =
      .error (.notAnOutput "M0") ∧
    (⟨"R0", "r0", [], [("O0", RecipeLine.init ⟨"O0", "o"⟩ 1)]⟩ : Recipe).get_input_quantity
        "M0" = 0 ∧
    (⟨"R0", "r0", [], [("O0", RecipeLine.init ⟨"O0", "o"⟩ 1)]⟩ : Recipe).get_input_line "M0" =
      .error (.notAnInput "M0") :=
  ⟨((quantity_absent_defaults ⟨"R0", "r0", [], [("O0", RecipeLine.init ⟨"O0", "o"⟩ 1)]⟩
      "M0").1 (by rfl)).1,
   ((quantity_absent_defaults ⟨"R0", "r0", [], [("O0", RecipeLine.init ⟨"O0", "o"⟩ 1)]⟩
      "M0").1 (by rfl)).2,
   ((quantity_absent_defaults ⟨"R0", "r0", [], [("O0", RecipeLine.init ⟨"O0", "o"⟩ 1)]⟩
      "M0").2 (by rfl)).1,
   ((quantity_absent_defaults ⟨"R0", "r0", [], [("O0", RecipeLine.init ⟨"O0", "o"⟩ 1)]⟩
      "M0").2 (by rfl)).2⟩

end Src
